import Mathlib

/-!
The host-api `events` package: start handler and processor entry point

A shallow embedding of `events/start_handler.go` and `events/entry.go`.

* Go `error` values are `GoError` (the message); a nil error is `none`.
* A Go function returning `(T, error)` that belongs to the package returns a
  record with both components, as the Go code does.  Calls into other
  packages (docker client, file system, JSON decoder, command execution) are
  answered by an explicit oracle; where the Go caller reads the value only
  after checking the error, the answer is an `Except GoError T`.
* A Go `int` is an `Int`; no arithmetic is done on one, it is only printed.
* Side effects are recorded, in program order, in a list of `Effect`s.
* The lock table of `locks` is explicit state: the list of keys held.
-/

set_option autoImplicit false

/-! ## Go values -/

/-- A non-nil Go `error`, identified with its message. -/
structure GoError where
  msg : String
  deriving DecidableEq, Repr

/-- Go `strings.HasPrefix`: `len(s) >= len(p) && s[0:len(p)] == p`. -/
def strings.HasPrefix (s p : String) : Bool :=
  decide (p.data.length ≤ s.data.length) && (s.data.take p.data.length == p.data)

/-- Go `strings.TrimPrefix`: `s[len(p):]` when `s` starts with `p`, else `s`. -/
def strings.TrimPrefix (s p : String) : String :=
  if strings.HasPrefix s p then String.mk (s.data.drop p.data.length) else s

/-- Go `strconv.Itoa`: the decimal text of an integer, `-` first when negative. -/
def strconv.Itoa (i : Int) : String :=
  match i with
  | Int.ofNat n => Nat.repr n
  | Int.negSucc n => "-" ++ Nat.repr (n + 1)

/-! ## go-dockerclient types (the fields the package reads) -/

/-- The `docker.Config` of a container: its environment, `KEY=value` entries. -/
structure docker.Config where
  Env : List String
  deriving DecidableEq, Repr

/-- The `docker.State` of a container. -/
structure docker.State where
  Running : Bool
  Pid : Int
  deriving DecidableEq, Repr

/-- The `docker.Container` returned by an inspection.  Its `Config` pointer is
taken to be non-nil, as it is in every answer of the docker daemon. -/
structure docker.Container where
  ID : String
  Config : docker.Config
  State : docker.State
  deriving DecidableEq, Repr

/-- The `docker.APIEvents` value: a container ID and a status tag. -/
structure docker.APIEvents where
  ID : String
  Status : String
  deriving DecidableEq, Repr

/-- The `docker.APIContainers` element of a container listing. -/
structure docker.APIContainers where
  ID : String
  deriving DecidableEq, Repr

/-- The `docker.ListContainersOptions` passed to a listing. -/
structure docker.ListContainersOptions where
  All : Bool
  Filters : List (String × List String)
  deriving DecidableEq, Repr

/-- The `*docker.Client`.  `InspectContainer n id` is the answer to the
`n`-th inspection (counted from 0) made within one handler invocation: the
container may change between two inspections. -/
structure docker.Client where
  InspectContainer : Nat → String → Except GoError docker.Container
  ListContainers : docker.ListContainersOptions → Except GoError (List docker.APIContainers)

/-- The `SimpleDockerClient` interface held by the start handler. -/
structure SimpleDockerClient where
  InspectContainer : Nat → String → Except GoError docker.Container

/-- A `*docker.Client` used through the `SimpleDockerClient` interface. -/
def docker.Client.asSimple (c : docker.Client) : SimpleDockerClient :=
  ⟨c.InspectContainer⟩

/-! ## start_handler.go -/

/-- The constant `RancherIPKey`. -/
def RancherIPKey : String := "RANCHER_IP="

/-- The type `subnet`. -/
structure subnet where
  CidrSize : Int
  deriving DecidableEq, Repr

/-- The type `ipAddress`. -/
structure ipAddress where
  Address : String
  Subnet : subnet
  Role : String
  deriving DecidableEq, Repr

/-- The type `nic`. -/
structure nic where
  IpAddresses : List ipAddress
  deriving DecidableEq, Repr

/-- The type `instance` (a reserved word here, hence the capital). -/
structure Instance where
  Nics : List nic
  deriving DecidableEq, Repr

/-- The `*exec.Cmd` built by `exec.Command(name, arg...)`. -/
structure exec.Cmd where
  Name : String
  Args : List String
  deriving DecidableEq, Repr

/-- Go `exec.Command`. -/
def exec.Command (name : String) (arg : List String) : exec.Cmd :=
  ⟨name, arg⟩

/-- The host the handler runs on: the answers of the calls that leave the
package.  `Stat p` is true when `os.Stat(p)` returns a nil error. -/
structure Host where
  Join : String → String → String
  Stat : String → Bool
  ReadFile : String → Except GoError String
  Unmarshal : String → Except GoError Instance
  CombinedOutput : exec.Cmd → String × Option GoError

/-- An observable effect of the handler. -/
inductive Effect where
  | Lock (key : String) (acquired : Bool)
  | Unlock (key : String)
  | InspectContainer (id : String)
  | Stat (path : String)
  | ReadFile (path : String)
  | CombinedOutput (cmd : exec.Cmd)
  deriving DecidableEq, Repr

/-- The `locks.Lock` call on a lock table: `none` (Go nil) when the key is
held, otherwise the table with the key added. -/
def locks.Lock (key : String) (held : List String) : Option (List String) :=
  if key ∈ held then none else some (key :: held)

/-- The `Unlock` method of an acquired lock: the key leaves the table. -/
def locks.Unlock (key : String) (held : List String) : List String :=
  held.erase key

/-- The struct `StartHandler`. -/
structure StartHandler where
  Client : SimpleDockerClient
  ContainerStateDir : String

/-- The variable `buildCommand`. -/
def buildCommand (pid : String) (ip : String) : exec.Cmd :=
  exec.Command "net-util.sh" ["-p", pid, "-i", ip]

/-- The function `configureIP`: the returned error and the effects. -/
def configureIP (w : Host) (pid : String) (ip : String) : Option GoError × List Effect :=
  let command := buildCommand pid ip
  match (w.CombinedOutput command).2 with
  | some err => (some err, [Effect.CombinedOutput command])
  | none => (none, [Effect.CombinedOutput command])

/-- The first loop of `getRancherIP` (lines 73-77): the value returned from
inside the loop, or `none` when the loop runs to its end. -/
def getRancherIP.envLoop : List String → Option String
  | [] => none
  | env :: rest =>
    if strings.HasPrefix env RancherIPKey then
      some (strings.TrimPrefix env RancherIPKey)
    else getRancherIP.envLoop rest

/-- The second loop of `getRancherIP` (lines 93-99): `ipData` after the loop,
starting from the zero value. -/
def getRancherIP.ipLoop : List ipAddress → ipAddress
  | [] => ⟨"", ⟨0⟩, ""⟩
  | i :: rest => if i.Role = "primary" then i else getRancherIP.ipLoop rest

/-- What `getRancherIP` gives back: both return values and the effects. -/
structure IPResult where
  ip : String
  err : Option GoError
  trace : List Effect
  deriving DecidableEq, Repr

/-- The method `StartHandler.getRancherIP`. -/
def StartHandler.getRancherIP (w : Host) (h : StartHandler) (c : docker.Container) : IPResult :=
  match getRancherIP.envLoop c.Config.Env with
  | some ip => ⟨ip, none, []⟩
  | none =>
    let filePath := w.Join h.ContainerStateDir c.ID
    if w.Stat filePath then
      match w.ReadFile filePath with
      | Except.error e =>
        ⟨"", some ⟨"Error reading file for container " ++ c.ID ++ ": " ++ e.msg⟩,
          [Effect.Stat filePath, Effect.ReadFile filePath]⟩
      | Except.ok file =>
        match w.Unmarshal file with
        | Except.error jerr =>
          ⟨"", some ⟨"Error unmarshalling json for container " ++ c.ID ++ ": " ++ jerr.msg⟩,
            [Effect.Stat filePath, Effect.ReadFile filePath]⟩
        | Except.ok instanceData =>
          match instanceData.Nics with
          | nic :: _ =>
            let ipData := getRancherIP.ipLoop nic.IpAddresses
            if ipData.Address ≠ "" then
              ⟨ipData.Address ++ "/" ++ strconv.Itoa ipData.Subnet.CidrSize, none,
                [Effect.Stat filePath, Effect.ReadFile filePath]⟩
            else ⟨"", none, [Effect.Stat filePath, Effect.ReadFile filePath]⟩
          | [] => ⟨"", none, [Effect.Stat filePath, Effect.ReadFile filePath]⟩
    else ⟨"", none, [Effect.Stat filePath]⟩

/-- The part of `StartHandler.Handle` that runs with the lock held (lines
33-69): the returned error and the effects. -/
def StartHandler.Handle.locked (w : Host) (h : StartHandler) (event : docker.APIEvents) :
    Option GoError × List Effect :=
  match h.Client.InspectContainer 0 event.ID with
  | Except.error err => (some err, [Effect.InspectContainer event.ID])
  | Except.ok c =>
    let r := h.getRancherIP w c
    match r.err with
    | some err => (some err, Effect.InspectContainer event.ID :: r.trace)
    | none =>
      if r.ip = "" then (none, Effect.InspectContainer event.ID :: r.trace)
      else if !c.State.Running then (none, Effect.InspectContainer event.ID :: r.trace)
      else
        let pid := c.State.Pid
        let run := configureIP w (strconv.Itoa pid) r.ip
        match run.1 with
        | some err =>
          match h.Client.InspectContainer 1 event.ID with
          | Except.error _ =>
            (some err, Effect.InspectContainer event.ID :: r.trace ++ run.2
              ++ [Effect.InspectContainer event.ID])
          | Except.ok c2 =>
            if !c2.State.Running then
              (none, Effect.InspectContainer event.ID :: r.trace ++ run.2
                ++ [Effect.InspectContainer event.ID])
            else
              (some err, Effect.InspectContainer event.ID :: r.trace ++ run.2
                ++ [Effect.InspectContainer event.ID])
        | none => (none, Effect.InspectContainer event.ID :: r.trace ++ run.2)

/-- What one `Handle` invocation leaves behind. -/
structure HandleResult where
  err : Option GoError
  held : List String
  trace : List Effect
  deriving DecidableEq, Repr

/-- The method `StartHandler.Handle`, run on the lock table `held`.  The
deferred `lock.Unlock()` runs after whichever return the locked part takes. -/
def StartHandler.Handle (w : Host) (h : StartHandler) (event : docker.APIEvents)
    (held : List String) : HandleResult :=
  match locks.Lock ("start." ++ event.ID) held with
  | none => ⟨none, held, [Effect.Lock ("start." ++ event.ID) false]⟩
  | some held1 =>
    let body := StartHandler.Handle.locked w h event
    ⟨body.1, locks.Unlock ("start." ++ event.ID) held1,
      Effect.Lock ("start." ++ event.ID) true :: body.2
        ++ [Effect.Unlock ("start." ++ event.ID)]⟩

/-- The configuration commands run in a trace, in order. -/
def commandsOf : List Effect → List exec.Cmd
  | [] => []
  | Effect.CombinedOutput cmd :: rest => cmd :: commandsOf rest
  | _ :: rest => commandsOf rest

/-- The lock operations in a trace, in order. -/
def lockOpsOf : List Effect → List Effect
  | [] => []
  | Effect.Lock key acquired :: rest => Effect.Lock key acquired :: lockOpsOf rest
  | Effect.Unlock key :: rest => Effect.Unlock key :: lockOpsOf rest
  | _ :: rest => lockOpsOf rest

/-! ## entry.go -/

/-- The fields of the global `config.Config` that the package reads. -/
structure config.Config where
  CattleUrl : String
  CattleAccessKey : String
  CattleSecretKey : String
  HostUuid : String
  CattleStateDir : String
  deriving DecidableEq, Repr

/-- The `rclient.ClientOpts` passed to `rclient.NewRancherClient`. -/
structure rclient.ClientOpts where
  Url : String
  AccessKey : String
  SecretKey : String
  deriving DecidableEq, Repr

/-- A non-nil `*rclient.RancherClient`, known by the options it was built from. -/
structure rclient.RancherClient where
  Opts : rclient.ClientOpts
  deriving DecidableEq, Repr

/-- The struct `SendToRancherHandler`, with the fields set in `getHandlersFn`. -/
structure SendToRancherHandler where
  client : docker.Client
  rancher : rclient.RancherClient
  hostUuid : String

/-- The interface `Handler`: the two handler types of the package. -/
inductive Handler where
  | Start (h : StartHandler)
  | SendToRancher (h : SendToRancherHandler)

/-- A Go `map[string][]Handler`, as a list of bindings with distinct keys. -/
abbrev Registry := List (String × List Handler)

/-- The map read `m[k]`: the bound chain, or `none` when `k` is not a key. -/
def Registry.get (m : Registry) (k : String) : Option (List Handler) :=
  match m with
  | [] => none
  | (k1, v) :: rest => if k1 = k then some v else Registry.get rest k

/-- The map write `m[k] = v`: replaces the binding of `k` or adds one. -/
def Registry.set (m : Registry) (k : String) (v : List Handler) : Registry :=
  match m with
  | [] => [(k, v)]
  | (k1, v1) :: rest => if k1 = k then (k, v) :: rest else (k1, v1) :: Registry.set rest k v

/-- The map read `m[k]` as a slice: a missing key reads as the nil slice. -/
def Registry.getD (m : Registry) (k : String) : List Handler :=
  (Registry.get m k).getD []

/-- The function `getHostUuid`. -/
def getHostUuid (cfg : config.Config) : String :=
  cfg.HostUuid

/-- The function `getContainerStateDir`. -/
def getContainerStateDir (cfg : config.Config) : String :=
  cfg.CattleStateDir

/-- The function `getHandlersFn`: the registry and the error it returns. -/
def getHandlersFn (cfg : config.Config) (dockerClient : docker.Client)
    (rancherClient : Option rclient.RancherClient) : Registry × Option GoError :=
  let handlers : Registry := []
  let startHandler : StartHandler :=
    { Client := dockerClient.asSimple, ContainerStateDir := getContainerStateDir cfg }
  let handlers := handlers.set "start" [Handler.Start startHandler]
  match rancherClient with
  | some rc =>
    let sendToRancherHandler : SendToRancherHandler :=
      { client := dockerClient, rancher := rc, hostUuid := getHostUuid cfg }
    let handlers := handlers.set "start"
      (handlers.getD "start" ++ [Handler.SendToRancher sendToRancherHandler])
    let handlers := handlers.set "create" [Handler.SendToRancher sendToRancherHandler]
    let handlers := handlers.set "stop" [Handler.SendToRancher sendToRancherHandler]
    let handlers := handlers.set "die" [Handler.SendToRancher sendToRancherHandler]
    let handlers := handlers.set "kill" [Handler.SendToRancher sendToRancherHandler]
    let handlers := handlers.set "destroy" [Handler.SendToRancher sendToRancherHandler]
    (handlers, none)
  | none => (handlers, none)

/-- The function `getRancherClientFn`; `NewRancherClient` is the constructor
of the client library. -/
def getRancherClientFn (cfg : config.Config)
    (NewRancherClient : rclient.ClientOpts → Except GoError rclient.RancherClient) :
    Option rclient.RancherClient × Option GoError :=
  let apiUrl := cfg.CattleUrl
  let accessKey := cfg.CattleAccessKey
  let secretKey := cfg.CattleSecretKey
  if apiUrl = "" ∨ accessKey = "" ∨ secretKey = "" then (none, none)
  else
    match NewRancherClient { Url := apiUrl, AccessKey := accessKey, SecretKey := secretKey } with
    | Except.error err => (none, some err)
    | Except.ok apiClient => (some apiClient, none)

/-- The `EventRouter` as `Process` sees it: the channel `listener`, known by
a number. -/
structure EventRouter where
  listener : Nat
  deriving DecidableEq, Repr

/-- An observable effect of `Process`. -/
inductive ProcessEffect where
  | RouterStart (router : EventRouter)
  | Watch (listener : Nat) (dir : String)
  | ListContainers (opts : docker.ListContainersOptions)
  | Send (listener : Nat) (event : docker.APIEvents)
  deriving DecidableEq, Repr

/-- The struct `DockerEventsProcessor`.  `NewEventRouter` stands for the
package function of that name, which `Process` calls. -/
structure DockerEventsProcessor where
  poolSize : Int
  getDockerClient : Unit → Except GoError docker.Client
  getHandlers : docker.Client → Option rclient.RancherClient → Registry × Option GoError
  getRancherClient : Unit → Option rclient.RancherClient × Option GoError
  NewEventRouter : Int → Int → docker.Client → Registry → Except GoError EventRouter

/-- The function `getDockerClientFn`; `NewDockerClient` is the package
function of that name. -/
def getDockerClientFn (NewDockerClient : Bool → Except GoError docker.Client) :
    Except GoError docker.Client :=
  NewDockerClient false

/-- The function `NewDockerEventsProcessor`. -/
def NewDockerEventsProcessor (cfg : config.Config)
    (NewDockerClient : Bool → Except GoError docker.Client)
    (NewRancherClient : rclient.ClientOpts → Except GoError rclient.RancherClient)
    (NewEventRouter : Int → Int → docker.Client → Registry → Except GoError EventRouter)
    (poolSize : Int) : DockerEventsProcessor :=
  { poolSize := poolSize
    getDockerClient := fun _ => getDockerClientFn NewDockerClient
    getHandlers := getHandlersFn cfg
    getRancherClient := fun _ => getRancherClientFn cfg NewRancherClient
    NewEventRouter := NewEventRouter }

/-- All the events sent in a trace, in order. -/
def sentEvents : List ProcessEffect → List docker.APIEvents
  | [] => []
  | ProcessEffect.Send _ event :: rest => event :: sentEvents rest
  | _ :: rest => sentEvents rest

/-- The final loop of `Process` (lines 59-65): one send per listed container. -/
def Process.sendLoop (listener : Nat) : List docker.APIContainers → List ProcessEffect
  | [] => []
  | c :: rest =>
    ProcessEffect.Send listener { ID := c.ID, Status := "start" } :: Process.sendLoop listener rest

/-- The method `DockerEventsProcessor.Process`: the returned error and the
effects.  A channel send is recorded when it is made. -/
def DockerEventsProcessor.Process (cfg : config.Config) (de : DockerEventsProcessor) :
    Option GoError × List ProcessEffect :=
  match de.getDockerClient () with
  | Except.error err => (some err, [])
  | Except.ok dockerClient =>
    match (de.getRancherClient ()).2 with
    | some err => (some err, [])
    | none =>
      let rancherClient := (de.getRancherClient ()).1
      match (de.getHandlers dockerClient rancherClient).2 with
      | some err => (some err, [])
      | none =>
        let handlers := (de.getHandlers dockerClient rancherClient).1
        match de.NewEventRouter de.poolSize de.poolSize dockerClient handlers with
        | Except.error err => (some err, [])
        | Except.ok router =>
          let listOpts : docker.ListContainersOptions :=
            { All := true, Filters := [("status", ["paused", "running"])] }
          match dockerClient.ListContainers listOpts with
          | Except.error err =>
            (some err, [ProcessEffect.RouterStart router,
              ProcessEffect.Watch router.listener (getContainerStateDir cfg),
              ProcessEffect.ListContainers listOpts])
          | Except.ok containers =>
            (none, [ProcessEffect.RouterStart router,
              ProcessEffect.Watch router.listener (getContainerStateDir cfg),
              ProcessEffect.ListContainers listOpts] ++ Process.sendLoop router.listener containers)

/-! ## Test fixtures -/

/-- A host with no descriptor file at all, on which every command succeeds. -/
def bareHost : Host :=
  { Join := fun d f => d ++ "/" ++ f
    Stat := fun _ => false
    ReadFile := fun _ => Except.error ⟨"no such file"⟩
    Unmarshal := fun _ => Except.error ⟨"unexpected end of JSON input"⟩
    CombinedOutput := fun _ => ("", none) }

/-- A host whose every descriptor file parses to the given instance and whose
command invocations all end with the given error. -/
def fileHost (inst : Instance) (cmdErr : Option GoError) : Host :=
  { Join := fun d f => d ++ "/" ++ f
    Stat := fun _ => true
    ReadFile := fun _ => Except.ok "descriptor"
    Unmarshal := fun _ => Except.ok inst
    CombinedOutput := fun _ => ("", cmdErr) }

/-- A host whose descriptor files exist but cannot be used: unreadable when
`readable` is false, readable but not valid JSON otherwise. -/
def brokenHost (readable : Bool) : Host :=
  { Join := fun d f => d ++ "/" ++ f
    Stat := fun _ => true
    ReadFile := fun _ =>
      if readable then Except.ok "not json" else Except.error ⟨"permission denied"⟩
    Unmarshal := fun _ => Except.error ⟨"invalid character"⟩
    CombinedOutput := fun _ => ("", none) }

/-- A configuration with a URL and an access key but no secret key. -/
def partialConfig : config.Config :=
  { CattleUrl := "http://cattle:8080/v1", CattleAccessKey := "key", CattleSecretKey := "",
    HostUuid := "host-1", CattleStateDir := "/state" }

/-- A docker client that answers the listing of paused and running
containers with `listing` and any other listing with nothing. -/
def mkClient (listing : Except GoError (List docker.APIContainers)) : docker.Client :=
  { InspectContainer := fun _ _ => Except.error ⟨"no such container"⟩
    ListContainers := fun opts =>
      if opts = ⟨true, [("status", ["paused", "running"])]⟩ then listing else Except.ok [] }

/-- A processor built by `NewDockerEventsProcessor` around the given client,
with a router whose listener is channel 0. -/
def mkProcessor (client : Except GoError docker.Client) : DockerEventsProcessor :=
  NewDockerEventsProcessor partialConfig (fun _ => client) (fun o => Except.ok ⟨o⟩)
    (fun _ _ _ _ => Except.ok ⟨0⟩) 10

/-- A container with the given environment and state. -/
def mkContainer (env : List String) (running : Bool) (pid : Int) : docker.Container :=
  { ID := "c1", Config := ⟨env⟩, State := ⟨running, pid⟩ }

/-- A start handler whose client answers the first inspection with `first`
and every later one with `second`. -/
def mkHandler (first second : Except GoError docker.Container) : StartHandler :=
  { Client := ⟨fun n _ => if n = 0 then first else second⟩, ContainerStateDir := "/state" }

/-- The descriptor of the specification's example: one NIC, one primary
entry 10.1.1.9 in a /24. -/
def exampleInstance : Instance :=
  ⟨[⟨[⟨"10.1.1.9", ⟨24⟩, "primary"⟩]⟩]⟩

/-! ## Strings -/

/-- The model of `strings.HasPrefix` decides the literal prefix relation. -/
theorem hasPrefix_iff (s p : String) :
    strings.HasPrefix s p = true ↔ ∃ u : String, s = p ++ u := by
  unfold strings.HasPrefix
  simp only [Bool.and_eq_true, decide_eq_true_eq, beq_iff_eq]
  constructor
  · rintro ⟨_, h⟩
    refine ⟨String.mk (s.data.drop p.data.length), ?_⟩
    apply String.ext
    rw [String.data_append]
    have key := List.take_append_drop p.data.length s.data
    rw [h] at key
    exact key.symm
  · rintro ⟨u, rfl⟩
    simp [String.data_append]

/-- Trimming a literal prefix gives back what follows it. -/
theorem trimPrefix_append (p u : String) : strings.TrimPrefix (p ++ u) p = u := by
  have h : strings.HasPrefix (p ++ u) p = true := (hasPrefix_iff _ _).2 ⟨u, rfl⟩
  unfold strings.TrimPrefix
  rw [if_pos h]
  apply String.ext
  simp [String.data_append]

/-- The environment loop falls through a list with no matching entry. -/
theorem envLoop_none (env : List String)
    (h : ∀ x ∈ env, ¬ ∃ u : String, x = RancherIPKey ++ u) :
    getRancherIP.envLoop env = none := by
  induction env with
  | nil => rfl
  | cons x rest ih =>
    have hx : strings.HasPrefix x RancherIPKey = false := by
      rw [← Bool.not_eq_true, hasPrefix_iff]
      exact h x (List.mem_cons_self _ _)
    simp only [getRancherIP.envLoop, hx]
    exact ih (fun y hy => h y (List.mem_cons_of_mem _ hy))

/-- The environment loop returns the value of the first matching entry. -/
theorem envLoop_first (pre post : List String) (v : String)
    (h : ∀ x ∈ pre, ¬ ∃ u : String, x = RancherIPKey ++ u) :
    getRancherIP.envLoop (pre ++ (RancherIPKey ++ v) :: post) = some v := by
  induction pre with
  | nil =>
    have hx : strings.HasPrefix (RancherIPKey ++ v) RancherIPKey = true :=
      (hasPrefix_iff _ _).2 ⟨v, rfl⟩
    simp only [List.nil_append, getRancherIP.envLoop, hx, trimPrefix_append, if_true]
  | cons x rest ih =>
    have hx : strings.HasPrefix x RancherIPKey = false := by
      rw [← Bool.not_eq_true, hasPrefix_iff]
      exact h x (List.mem_cons_self _ _)
    simp only [List.cons_append, getRancherIP.envLoop, hx]
    exact ih (fun y hy => h y (List.mem_cons_of_mem _ hy))

/-- An entry is no match exactly when the model of `HasPrefix` rejects it. -/
theorem not_match_of_hasPrefix_false (x : String)
    (h : strings.HasPrefix x RancherIPKey = false) : ¬ ∃ u : String, x = RancherIPKey ++ u := by
  rw [← hasPrefix_iff, h]
  simp

/-! ## The desired IP -/

/-- C1: when the environment has an entry with the literal prefix
`RANCHER_IP=`, `getRancherIP` returns what follows the prefix in the first
such entry, verbatim and with no error, on every host (it does not touch the
state directory); a list with no entry of that form falls through the loop,
and `RANCHER_IPX=1` is not of that form. -/
theorem getRancherIP_env_verbatim (w : Host) (h : StartHandler) (c : docker.Container)
    (pre post : List String) (v : String)
    (hpre : ∀ x ∈ pre, ¬ ∃ u : String, x = RancherIPKey ++ u)
    (henv : c.Config.Env = pre ++ (RancherIPKey ++ v) :: post) :
    h.getRancherIP w c = ⟨v, none, []⟩ ∧
    (∀ env : List String, (∀ x ∈ env, ¬ ∃ u : String, x = RancherIPKey ++ u) →
      getRancherIP.envLoop env = none) ∧
    ¬ ∃ u : String, "RANCHER_IPX=1" = RancherIPKey ++ u := by
  refine ⟨?_, envLoop_none, not_match_of_hasPrefix_false _ (by decide)⟩
  unfold StartHandler.getRancherIP
  rw [henv, envLoop_first pre post v hpre]

/-- C1 at the specification's example: `RANCHER_IP=10.0.0.5/24` after an
unrelated entry and before a second match, with a valid descriptor present. -/
theorem getRancherIP_env_verbatim_witness :
    (mkHandler (Except.error ⟨"x"⟩) (Except.error ⟨"x"⟩)).getRancherIP
        (fileHost exampleInstance none)
        (mkContainer ["RANCHER_IPX=1", "RANCHER_IP=10.0.0.5/24", "RANCHER_IP=="] true 7)
      = ⟨"10.0.0.5/24", none, []⟩ :=
  (getRancherIP_env_verbatim (fileHost exampleInstance none)
    (mkHandler (Except.error ⟨"x"⟩) (Except.error ⟨"x"⟩))
    (mkContainer ["RANCHER_IPX=1", "RANCHER_IP=10.0.0.5/24", "RANCHER_IP=="] true 7)
    ["RANCHER_IPX=1"] ["RANCHER_IP=="] "10.0.0.5/24"
    (by
      intro x hx
      rw [List.mem_singleton] at hx
      subst hx
      exact not_match_of_hasPrefix_false _ (by decide))
    (by decide)).1

/-- The address loop stops at the first entry of role `primary`. -/
theorem ipLoop_first (before after : List ipAddress) (p : ipAddress)
    (hbefore : ∀ i ∈ before, i.Role ≠ "primary") (hrole : p.Role = "primary") :
    getRancherIP.ipLoop (before ++ p :: after) = p := by
  induction before with
  | nil => simp [getRancherIP.ipLoop, hrole]
  | cons i rest ih =>
    have hi : i.Role ≠ "primary" := hbefore i (List.mem_cons_self _ _)
    simp only [List.cons_append, getRancherIP.ipLoop, hi, if_false]
    exact ih (fun j hj => hbefore j (List.mem_cons_of_mem _ hj))

/-- The address loop leaves the zero value when no entry has role `primary`. -/
theorem ipLoop_zero (l : List ipAddress) (hl : ∀ i ∈ l, i.Role ≠ "primary") :
    getRancherIP.ipLoop l = ⟨"", ⟨0⟩, ""⟩ := by
  induction l with
  | nil => rfl
  | cons i rest ih =>
    have hi : i.Role ≠ "primary" := hl i (List.mem_cons_self _ _)
    simp only [getRancherIP.ipLoop, hi, if_false]
    exact ih (fun j hj => hl j (List.mem_cons_of_mem _ hj))

/-- The address loop only looks at the entries of role `primary`. -/
theorem ipLoop_filter (l : List ipAddress) :
    getRancherIP.ipLoop (l.filter fun i => decide (i.Role = "primary")) =
      getRancherIP.ipLoop l := by
  induction l with
  | nil => rfl
  | cons i rest ih =>
    by_cases hi : i.Role = "primary"
    · simp [List.filter, getRancherIP.ipLoop, hi]
    · simp [List.filter, getRancherIP.ipLoop, hi, ih]

/-- What `getRancherIP` returns once the environment has no match and the
descriptor file was found, read and parsed. -/
theorem getRancherIP_parsed (w : Host) (h : StartHandler) (c : docker.Container)
    (file : String) (inst : Instance)
    (henv : ∀ x ∈ c.Config.Env, ¬ ∃ u : String, x = RancherIPKey ++ u)
    (hstat : w.Stat (w.Join h.ContainerStateDir c.ID) = true)
    (hread : w.ReadFile (w.Join h.ContainerStateDir c.ID) = Except.ok file)
    (hparse : w.Unmarshal file = Except.ok inst) :
    h.getRancherIP w c =
      ⟨(match inst.Nics.head? with
        | some n =>
          if (getRancherIP.ipLoop n.IpAddresses).Address ≠ "" then
            (getRancherIP.ipLoop n.IpAddresses).Address ++ "/" ++
              strconv.Itoa (getRancherIP.ipLoop n.IpAddresses).Subnet.CidrSize
          else ""
        | none => ""), none,
       [Effect.Stat (w.Join h.ContainerStateDir c.ID),
        Effect.ReadFile (w.Join h.ContainerStateDir c.ID)]⟩ := by
  unfold StartHandler.getRancherIP
  simp only [envLoop_none _ henv, hstat, hread, hparse, if_true]
  cases hn : inst.Nics with
  | nil => simp
  | cons n rest =>
    by_cases ha : (getRancherIP.ipLoop n.IpAddresses).Address = ""
    · simp [ha]
    · simp [ha]

/-- C2: with no `RANCHER_IP=` entry in the environment and a descriptor file
that exists, is read and parses to an instance with at least one NIC, when the
first entry of role `primary` in the first NIC has a non-empty address,
`getRancherIP` returns `address/size` and no error; the result is the same for
every other parse result whose first NIC has the same entries of role
`primary` (later NICs and other roles do not matter). -/
theorem getRancherIP_descriptor_primary (w : Host) (h : StartHandler) (c : docker.Container)
    (file : String) (inst : Instance) (n : nic) (rest : List nic)
    (before after : List ipAddress) (p : ipAddress)
    (henv : ∀ x ∈ c.Config.Env, ¬ ∃ u : String, x = RancherIPKey ++ u)
    (hstat : w.Stat (w.Join h.ContainerStateDir c.ID) = true)
    (hread : w.ReadFile (w.Join h.ContainerStateDir c.ID) = Except.ok file)
    (hparse : w.Unmarshal file = Except.ok inst)
    (hnics : inst.Nics = n :: rest)
    (hips : n.IpAddresses = before ++ p :: after)
    (hbefore : ∀ i ∈ before, i.Role ≠ "primary")
    (hrole : p.Role = "primary") (haddr : p.Address ≠ "") :
    (h.getRancherIP w c).ip = p.Address ++ "/" ++ strconv.Itoa p.Subnet.CidrSize ∧
    (h.getRancherIP w c).err = none ∧
    ∀ inst2 : Instance,
      (inst2.Nics.head?.map fun m => m.IpAddresses.filter fun i => decide (i.Role = "primary")) =
        (inst.Nics.head?.map fun m => m.IpAddresses.filter fun i => decide (i.Role = "primary")) →
      h.getRancherIP
          { Join := w.Join, Stat := w.Stat, ReadFile := w.ReadFile,
            Unmarshal := fun _ => Except.ok inst2, CombinedOutput := w.CombinedOutput } c =
        h.getRancherIP w c := by
  have hmain := getRancherIP_parsed w h c file inst henv hstat hread hparse
  have hloop : getRancherIP.ipLoop n.IpAddresses = p := by
    rw [hips]
    exact ipLoop_first before after p hbefore hrole
  refine ⟨?_, ?_, ?_⟩
  · rw [hmain, hnics]
    simp [hloop, haddr]
  · rw [hmain]
  · intro inst2 hsame
    rw [hmain]
    rw [getRancherIP_parsed
      { Join := w.Join, Stat := w.Stat, ReadFile := w.ReadFile,
        Unmarshal := fun _ => Except.ok inst2, CombinedOutput := w.CombinedOutput }
      h c file inst2 henv hstat hread rfl]
    rw [hnics] at hsame ⊢
    cases hn2 : inst2.Nics with
    | nil => rw [hn2] at hsame; simp at hsame
    | cons m rest2 =>
      rw [hn2] at hsame
      simp only [List.head?_cons, Option.map_some', Option.some.injEq] at hsame
      have hm : getRancherIP.ipLoop m.IpAddresses = getRancherIP.ipLoop n.IpAddresses := by
        rw [← ipLoop_filter m.IpAddresses, hsame, ipLoop_filter]
      simp only [List.head?_cons, hm]

/-- C2 at the specification's example: one NIC with one primary entry
10.1.1.9 of size 24 gives `10.1.1.9/24`. -/
theorem getRancherIP_descriptor_primary_witness :
    ((mkHandler (Except.error ⟨"x"⟩) (Except.error ⟨"x"⟩)).getRancherIP
        (fileHost exampleInstance none) (mkContainer ["PATH=/bin"] true 7)).ip = "10.1.1.9/24" ∧
    ((mkHandler (Except.error ⟨"x"⟩) (Except.error ⟨"x"⟩)).getRancherIP
        (fileHost exampleInstance none) (mkContainer ["PATH=/bin"] true 7)).err = none :=
  have key := getRancherIP_descriptor_primary (fileHost exampleInstance none)
    (mkHandler (Except.error ⟨"x"⟩) (Except.error ⟨"x"⟩)) (mkContainer ["PATH=/bin"] true 7)
    "descriptor" exampleInstance ⟨[⟨"10.1.1.9", ⟨24⟩, "primary"⟩]⟩ [] []
    [] ⟨"10.1.1.9", ⟨24⟩, "primary"⟩
    (by
      intro x hx
      rw [show (mkContainer ["PATH=/bin"] true 7).Config.Env = ["PATH=/bin"] from rfl,
        List.mem_singleton] at hx
      subst hx
      exact not_match_of_hasPrefix_false _ (by decide))
    rfl rfl rfl rfl rfl (by simp) rfl (by decide)
  ⟨key.1.trans (by decide), key.2.1⟩

/-! ## The handler -/

/-- The commands of two traces run one after the other. -/
theorem commandsOf_append (a b : List Effect) :
    commandsOf (a ++ b) = commandsOf a ++ commandsOf b := by
  induction a with
  | nil => rfl
  | cons x rest ih => cases x <;> simp [commandsOf, ih]

/-- Looking for the desired IP runs no command. -/
theorem commandsOf_getRancherIP (w : Host) (h : StartHandler) (c : docker.Container) :
    commandsOf (h.getRancherIP w c).trace = [] := by
  unfold StartHandler.getRancherIP
  split
  · rfl
  · dsimp only
    split
    · split
      · rfl
      · split
        · rfl
        · split
          · split <;> rfl
          · rfl
    · rfl

/-- A lock that is acquired is a lock whose key was free, and releasing it
restores the table. -/
theorem lock_acquired (key : String) (held : List String)
    (hlock : locks.Lock key held ≠ none) :
    locks.Lock key held = some (key :: held) ∧ locks.Unlock key (key :: held) = held := by
  unfold locks.Lock at hlock ⊢
  by_cases hk : key ∈ held
  · simp [hk] at hlock
  · simp [hk, locks.Unlock]

/-- With the lock acquired, `Handle` is its locked part between the
acquisition and the deferred release. -/
theorem handle_acquired (w : Host) (h : StartHandler) (event : docker.APIEvents)
    (held : List String) (hlock : locks.Lock ("start." ++ event.ID) held ≠ none) :
    h.Handle w event held =
      ⟨(StartHandler.Handle.locked w h event).1, held,
        Effect.Lock ("start." ++ event.ID) true :: (StartHandler.Handle.locked w h event).2
          ++ [Effect.Unlock ("start." ++ event.ID)]⟩ := by
  obtain ⟨h1, h2⟩ := lock_acquired _ held hlock
  unfold StartHandler.Handle
  rw [h1]
  simp only [h2]

/-- Without the lock, `Handle` returns at once. -/
theorem handle_lock_free (w : Host) (h : StartHandler) (event : docker.APIEvents)
    (held : List String) (hlock : locks.Lock ("start." ++ event.ID) held = none) :
    h.Handle w event held = ⟨none, held, [Effect.Lock ("start." ++ event.ID) false]⟩ := by
  unfold StartHandler.Handle
  rw [hlock]

/-- The commands run by the locked part: one, when the first inspection
succeeds, an IP is found without error and the container runs; else none. -/
theorem locked_commands (w : Host) (h : StartHandler) (event : docker.APIEvents) :
    commandsOf (StartHandler.Handle.locked w h event).2 =
      match h.Client.InspectContainer 0 event.ID with
      | Except.error _ => []
      | Except.ok c =>
        if (h.getRancherIP w c).err = none ∧ (h.getRancherIP w c).ip ≠ "" ∧
            c.State.Running = true then
          [buildCommand (strconv.Itoa c.State.Pid) (h.getRancherIP w c).ip]
        else [] := by
  unfold StartHandler.Handle.locked
  cases hins : h.Client.InspectContainer 0 event.ID with
  | error e => simp [commandsOf]
  | ok c =>
    dsimp only
    cases herr : (h.getRancherIP w c).err with
    | some e => simp [commandsOf, commandsOf_getRancherIP]
    | none =>
      by_cases hip : (h.getRancherIP w c).ip = ""
      · simp [hip, commandsOf, commandsOf_getRancherIP]
      · cases hrun : c.State.Running with
        | false => simp [hip, commandsOf, commandsOf_getRancherIP]
        | true =>
          simp only [hip, if_false, Bool.not_true, Bool.false_eq_true, true_and, ne_eq,
            not_false_eq_true, and_self, if_true]
          cases hcmd : (w.CombinedOutput
              (buildCommand (strconv.Itoa c.State.Pid) (h.getRancherIP w c).ip)).2 with
          | none =>
            simp [configureIP, hcmd, commandsOf, commandsOf_append, commandsOf_getRancherIP]
          | some e =>
            cases hre : h.Client.InspectContainer 1 event.ID with
            | error e2 =>
              simp [configureIP, hcmd, commandsOf, commandsOf_append, commandsOf_getRancherIP]
            | ok c2 =>
              cases hrun2 : c2.State.Running <;>
                simp [configureIP, hcmd, hrun2, commandsOf, commandsOf_append,
                  commandsOf_getRancherIP]

/-- The commands run by `Handle`: those of the locked part when the lock is
acquired, none otherwise. -/
theorem handle_commands (w : Host) (h : StartHandler) (event : docker.APIEvents)
    (held : List String) :
    commandsOf (h.Handle w event held).trace =
      if locks.Lock ("start." ++ event.ID) held ≠ none then
        commandsOf (StartHandler.Handle.locked w h event).2
      else [] := by
  by_cases hlock : locks.Lock ("start." ++ event.ID) held ≠ none
  · rw [if_pos hlock, handle_acquired w h event held hlock]
    simp [commandsOf, commandsOf_append]
  · rw [if_neg hlock]
    have hnone : locks.Lock ("start." ++ event.ID) held = none := not_not.mp hlock
    unfold StartHandler.Handle
    rw [hnone]
    rfl

/-- The locked part when the command is run and fails: the container is
inspected again, and the command error is dropped only if that inspection
succeeds and finds the container stopped. -/
theorem locked_command_failed (w : Host) (h : StartHandler) (event : docker.APIEvents)
    (c : docker.Container) (e : GoError)
    (hins : h.Client.InspectContainer 0 event.ID = Except.ok c)
    (herr : (h.getRancherIP w c).err = none)
    (hip : (h.getRancherIP w c).ip ≠ "")
    (hrun : c.State.Running = true)
    (hcmd : (w.CombinedOutput
      (buildCommand (strconv.Itoa c.State.Pid) (h.getRancherIP w c).ip)).2 = some e) :
    StartHandler.Handle.locked w h event =
      ((match h.Client.InspectContainer 1 event.ID with
        | Except.error _ => some e
        | Except.ok c2 => if c2.State.Running = true then some e else none),
       Effect.InspectContainer event.ID :: (h.getRancherIP w c).trace ++
        [Effect.CombinedOutput (buildCommand (strconv.Itoa c.State.Pid) (h.getRancherIP w c).ip),
         Effect.InspectContainer event.ID]) := by
  unfold StartHandler.Handle.locked
  simp only [hins, herr, hip, hrun, configureIP, hcmd, if_false, Bool.not_true,
    Bool.false_eq_true]
  cases hre : h.Client.InspectContainer 1 event.ID with
  | error e2 => simp
  | ok c2 => cases hrun2 : c2.State.Running <;> simp [hrun2]

/-- C3: with the lock acquired, the first inspection successful, a non-empty
IP found and the container running, when the command fails with `e` the
handler inspects the container once more: it returns nil if that inspection
succeeds and finds the container stopped, `e` if it finds it running, and `e`
(not the inspection error) if the inspection fails; the command is run once. -/
theorem handle_command_failure (w : Host) (h : StartHandler) (event : docker.APIEvents)
    (held : List String) (c : docker.Container) (e : GoError)
    (hlock : locks.Lock ("start." ++ event.ID) held ≠ none)
    (hins : h.Client.InspectContainer 0 event.ID = Except.ok c)
    (herr : (h.getRancherIP w c).err = none)
    (hip : (h.getRancherIP w c).ip ≠ "")
    (hrun : c.State.Running = true)
    (hcmd : (w.CombinedOutput
      (buildCommand (strconv.Itoa c.State.Pid) (h.getRancherIP w c).ip)).2 = some e) :
    (∀ c2 : docker.Container, h.Client.InspectContainer 1 event.ID = Except.ok c2 →
      c2.State.Running = false → (h.Handle w event held).err = none) ∧
    (∀ c2 : docker.Container, h.Client.InspectContainer 1 event.ID = Except.ok c2 →
      c2.State.Running = true → (h.Handle w event held).err = some e) ∧
    (∀ e2 : GoError, h.Client.InspectContainer 1 event.ID = Except.error e2 →
      (h.Handle w event held).err = some e) ∧
    (h.Handle w event held).trace =
      Effect.Lock ("start." ++ event.ID) true :: Effect.InspectContainer event.ID ::
        (h.getRancherIP w c).trace ++
        [Effect.CombinedOutput (buildCommand (strconv.Itoa c.State.Pid) (h.getRancherIP w c).ip),
         Effect.InspectContainer event.ID, Effect.Unlock ("start." ++ event.ID)] ∧
    commandsOf (h.Handle w event held).trace =
      [buildCommand (strconv.Itoa c.State.Pid) (h.getRancherIP w c).ip] := by
  have hbody := locked_command_failed w h event c e hins herr hip hrun hcmd
  have hall := handle_acquired w h event held hlock
  refine ⟨?_, ?_, ?_, ?_, ?_⟩
  · intro c2 hre hrun2
    rw [hall, hbody, hre]
    simp [hrun2]
  · intro c2 hre hrun2
    rw [hall, hbody, hre]
    simp [hrun2]
  · intro e2 hre
    rw [hall, hbody, hre]
  · rw [hall, hbody]
    simp
  · rw [handle_commands, if_pos hlock, locked_commands, hins]
    simp [herr, hip, hrun]

/-- C3 on a container with `RANCHER_IP=10.0.0.5/24` whose command exits with
status 1: nil when the second inspection finds it stopped, the command error
when it finds it running or fails. -/
theorem handle_command_failure_witness :
    ((mkHandler (Except.ok (mkContainer ["RANCHER_IP=10.0.0.5/24"] true 7))
        (Except.ok (mkContainer ["RANCHER_IP=10.0.0.5/24"] false 0))).Handle
      (fileHost exampleInstance (some ⟨"exit status 1"⟩)) ⟨"c1", "start"⟩ []).err = none ∧
    ((mkHandler (Except.ok (mkContainer ["RANCHER_IP=10.0.0.5/24"] true 7))
        (Except.ok (mkContainer ["RANCHER_IP=10.0.0.5/24"] true 7))).Handle
      (fileHost exampleInstance (some ⟨"exit status 1"⟩)) ⟨"c1", "start"⟩ []).err
        = some ⟨"exit status 1"⟩ ∧
    ((mkHandler (Except.ok (mkContainer ["RANCHER_IP=10.0.0.5/24"] true 7))
        (Except.error ⟨"no such container"⟩)).Handle
      (fileHost exampleInstance (some ⟨"exit status 1"⟩)) ⟨"c1", "start"⟩ []).err
        = some ⟨"exit status 1"⟩ :=
  ⟨(handle_command_failure (fileHost exampleInstance (some ⟨"exit status 1"⟩))
      (mkHandler (Except.ok (mkContainer ["RANCHER_IP=10.0.0.5/24"] true 7))
        (Except.ok (mkContainer ["RANCHER_IP=10.0.0.5/24"] false 0)))
      ⟨"c1", "start"⟩ [] (mkContainer ["RANCHER_IP=10.0.0.5/24"] true 7) ⟨"exit status 1"⟩
      (by decide) rfl (by decide) (by decide) rfl rfl).1
      (mkContainer ["RANCHER_IP=10.0.0.5/24"] false 0) rfl rfl,
   (handle_command_failure (fileHost exampleInstance (some ⟨"exit status 1"⟩))
      (mkHandler (Except.ok (mkContainer ["RANCHER_IP=10.0.0.5/24"] true 7))
        (Except.ok (mkContainer ["RANCHER_IP=10.0.0.5/24"] true 7)))
      ⟨"c1", "start"⟩ [] (mkContainer ["RANCHER_IP=10.0.0.5/24"] true 7) ⟨"exit status 1"⟩
      (by decide) rfl (by decide) (by decide) rfl rfl).2.1
      (mkContainer ["RANCHER_IP=10.0.0.5/24"] true 7) rfl rfl,
   (handle_command_failure (fileHost exampleInstance (some ⟨"exit status 1"⟩))
      (mkHandler (Except.ok (mkContainer ["RANCHER_IP=10.0.0.5/24"] true 7))
        (Except.error ⟨"no such container"⟩))
      ⟨"c1", "start"⟩ [] (mkContainer ["RANCHER_IP=10.0.0.5/24"] true 7) ⟨"exit status 1"⟩
      (by decide) rfl (by decide) (by decide) rfl rfl).2.2.1
      ⟨"no such container"⟩ rfl⟩

/-- The locked part when the first inspection succeeds and no IP is found:
it returns nil after the lookup, whatever the container state. -/
theorem locked_no_ip (w : Host) (h : StartHandler) (event : docker.APIEvents)
    (c : docker.Container)
    (hins : h.Client.InspectContainer 0 event.ID = Except.ok c)
    (herr : (h.getRancherIP w c).err = none)
    (hip : (h.getRancherIP w c).ip = "") :
    StartHandler.Handle.locked w h event =
      (none, Effect.InspectContainer event.ID :: (h.getRancherIP w c).trace) := by
  unfold StartHandler.Handle.locked
  simp only [hins, herr, hip, if_true]

/-- C4: with no `RANCHER_IP=` entry in the environment, `getRancherIP` returns
the empty string and no error when the descriptor file is absent, or parses to
an instance with no NIC, or its first NIC has no entry of role `primary`, or
the first such entry has an empty address; and then `Handle`, with the lock
acquired and the inspection successful, returns nil and runs no command,
whether the container runs or not. -/
theorem getRancherIP_nothing_to_assign (w : Host) (h : StartHandler) (c : docker.Container)
    (henv : ∀ x ∈ c.Config.Env, ¬ ∃ u : String, x = RancherIPKey ++ u)
    (hcase : w.Stat (w.Join h.ContainerStateDir c.ID) = false ∨
      ∃ (file : String) (inst : Instance),
        w.Stat (w.Join h.ContainerStateDir c.ID) = true ∧
        w.ReadFile (w.Join h.ContainerStateDir c.ID) = Except.ok file ∧
        w.Unmarshal file = Except.ok inst ∧
        (inst.Nics = [] ∨
          ∃ (n : nic) (rest : List nic), inst.Nics = n :: rest ∧
            ((∀ i ∈ n.IpAddresses, i.Role ≠ "primary") ∨
              ∃ (before : List ipAddress) (p : ipAddress) (after : List ipAddress),
                n.IpAddresses = before ++ p :: after ∧
                (∀ i ∈ before, i.Role ≠ "primary") ∧ p.Role = "primary" ∧ p.Address = ""))) :
    (h.getRancherIP w c).ip = "" ∧ (h.getRancherIP w c).err = none ∧
    ∀ (event : docker.APIEvents) (held : List String),
      locks.Lock ("start." ++ event.ID) held ≠ none →
      h.Client.InspectContainer 0 event.ID = Except.ok c →
      (h.Handle w event held).err = none ∧ commandsOf (h.Handle w event held).trace = [] := by
  have hres : (h.getRancherIP w c).ip = "" ∧ (h.getRancherIP w c).err = none := by
    rcases hcase with hstat | ⟨file, inst, hstat, hread, hparse, hshape⟩
    · unfold StartHandler.getRancherIP
      simp [envLoop_none _ henv, hstat]
    · rw [getRancherIP_parsed w h c file inst henv hstat hread hparse]
      refine ⟨?_, rfl⟩
      rcases hshape with hnil | ⟨n, rest, hn, hips⟩
      · simp [hnil]
      · rcases hips with hnone | ⟨before, p, after, hsplit, hbefore, hrole, haddr⟩
        · simp [hn, ipLoop_zero _ hnone]
        · have hloop : getRancherIP.ipLoop n.IpAddresses = p := by
            rw [hsplit]
            exact ipLoop_first before after p hbefore hrole
          simp [hn, hloop, haddr]
  refine ⟨hres.1, hres.2, ?_⟩
  intro event held hlock hins
  constructor
  · rw [handle_acquired w h event held hlock, locked_no_ip w h event c hins hres.2 hres.1]
  · rw [handle_commands, if_pos hlock, locked_commands, hins]
    simp [hres.1]

/-- C4 on a running container with neither environment entry nor descriptor
file: the empty IP, a nil result and no command. -/
theorem getRancherIP_nothing_to_assign_witness :
    ((mkHandler (Except.ok (mkContainer ["PATH=/bin"] true 7))
        (Except.error ⟨"x"⟩)).getRancherIP bareHost (mkContainer ["PATH=/bin"] true 7)).ip = "" ∧
    ((mkHandler (Except.ok (mkContainer ["PATH=/bin"] true 7)) (Except.error ⟨"x"⟩)).Handle
      bareHost ⟨"c1", "start"⟩ []).err = none ∧
    commandsOf ((mkHandler (Except.ok (mkContainer ["PATH=/bin"] true 7))
      (Except.error ⟨"x"⟩)).Handle bareHost ⟨"c1", "start"⟩ []).trace = [] :=
  have key := getRancherIP_nothing_to_assign bareHost
    (mkHandler (Except.ok (mkContainer ["PATH=/bin"] true 7)) (Except.error ⟨"x"⟩))
    (mkContainer ["PATH=/bin"] true 7)
    (by
      intro x hx
      rw [show (mkContainer ["PATH=/bin"] true 7).Config.Env = ["PATH=/bin"] from rfl,
        List.mem_singleton] at hx
      subst hx
      exact not_match_of_hasPrefix_false _ (by decide))
    (Or.inl rfl)
  ⟨key.1, key.2.2 ⟨"c1", "start"⟩ [] (by decide) rfl⟩

/-- C5: when `locks.Lock` returns nil for the key `start.` followed by the
event ID, `Handle` returns nil, leaves the lock table as it was, and does
nothing besides the failed lock attempt: no inspection, no descriptor read,
no command. -/
theorem handle_lock_unavailable (w : Host) (h : StartHandler) (event : docker.APIEvents)
    (held : List String) (hlock : locks.Lock ("start." ++ event.ID) held = none) :
    h.Handle w event held = ⟨none, held, [Effect.Lock ("start." ++ event.ID) false]⟩ := by
  unfold StartHandler.Handle
  rw [hlock]

/-- C5 on a container whose key is held, with a running container, a valid IP
and a command that would succeed. -/
theorem handle_lock_unavailable_witness :
    (mkHandler (Except.ok (mkContainer ["RANCHER_IP=10.0.0.5/24"] true 7))
        (Except.error ⟨"x"⟩)).Handle bareHost ⟨"c1", "start"⟩ ["stop.c1", "start.c1"]
      = ⟨none, ["stop.c1", "start.c1"], [Effect.Lock "start.c1" false]⟩ :=
  handle_lock_unavailable bareHost
    (mkHandler (Except.ok (mkContainer ["RANCHER_IP=10.0.0.5/24"] true 7)) (Except.error ⟨"x"⟩))
    ⟨"c1", "start"⟩ ["stop.c1", "start.c1"] (by decide)

/-- The lock operations of two traces run one after the other. -/
theorem lockOpsOf_append (a b : List Effect) :
    lockOpsOf (a ++ b) = lockOpsOf a ++ lockOpsOf b := by
  induction a with
  | nil => rfl
  | cons x rest ih => cases x <;> simp [lockOpsOf, ih]

/-- Looking for the desired IP touches no lock. -/
theorem lockOpsOf_getRancherIP (w : Host) (h : StartHandler) (c : docker.Container) :
    lockOpsOf (h.getRancherIP w c).trace = [] := by
  unfold StartHandler.getRancherIP
  split
  · rfl
  · dsimp only
    split
    · split
      · rfl
      · split
        · rfl
        · split
          · split <;> rfl
          · rfl
    · rfl

/-- The locked part touches no lock, on any of its return paths. -/
theorem lockOpsOf_locked (w : Host) (h : StartHandler) (event : docker.APIEvents) :
    lockOpsOf (StartHandler.Handle.locked w h event).2 = [] := by
  unfold StartHandler.Handle.locked
  cases hins : h.Client.InspectContainer 0 event.ID with
  | error e => simp [lockOpsOf]
  | ok c =>
    dsimp only
    cases herr : (h.getRancherIP w c).err with
    | some e => simp [lockOpsOf, lockOpsOf_getRancherIP]
    | none =>
      by_cases hip : (h.getRancherIP w c).ip = ""
      · simp [hip, lockOpsOf, lockOpsOf_getRancherIP]
      · cases hrun : c.State.Running with
        | false => simp [hip, lockOpsOf, lockOpsOf_getRancherIP]
        | true =>
          simp only [hip, if_false, Bool.not_true, Bool.false_eq_true]
          cases hcmd : (w.CombinedOutput
              (buildCommand (strconv.Itoa c.State.Pid) (h.getRancherIP w c).ip)).2 with
          | none =>
            simp [configureIP, hcmd, lockOpsOf, lockOpsOf_append, lockOpsOf_getRancherIP]
          | some e =>
            cases hre : h.Client.InspectContainer 1 event.ID with
            | error e2 =>
              simp [configureIP, hcmd, lockOpsOf, lockOpsOf_append, lockOpsOf_getRancherIP]
            | ok c2 =>
              cases hrun2 : c2.State.Running <;>
                simp [configureIP, hcmd, hrun2, lockOpsOf, lockOpsOf_append,
                  lockOpsOf_getRancherIP]

/-- C6: on every input the lock table after `Handle` is the table before it.
An invocation that acquired the lock `start.` followed by the event ID has,
on every return path, exactly two lock operations, the acquisition first and
the release as its last effect, and the key is free afterwards; an invocation
that did not acquire it makes the failed attempt and no release. -/
theorem handle_releases_lock (w : Host) (h : StartHandler) (event : docker.APIEvents)
    (held : List String) :
    (h.Handle w event held).held = held ∧
    (locks.Lock ("start." ++ event.ID) held ≠ none →
      lockOpsOf (h.Handle w event held).trace =
        [Effect.Lock ("start." ++ event.ID) true, Effect.Unlock ("start." ++ event.ID)] ∧
      (h.Handle w event held).trace.getLast? = some (Effect.Unlock ("start." ++ event.ID)) ∧
      (h.Handle w event held).trace.head? = some (Effect.Lock ("start." ++ event.ID) true) ∧
      "start." ++ event.ID ∉ (h.Handle w event held).held) ∧
    (locks.Lock ("start." ++ event.ID) held = none →
      lockOpsOf (h.Handle w event held).trace =
        [Effect.Lock ("start." ++ event.ID) false]) := by
  refine ⟨?_, ?_, ?_⟩
  · by_cases hlock : locks.Lock ("start." ++ event.ID) held = none
    · rw [handle_lock_free w h event held hlock]
    · rw [handle_acquired w h event held hlock]
  · intro hlock
    rw [handle_acquired w h event held hlock]
    refine ⟨?_, ?_, ?_, ?_⟩
    · simp [lockOpsOf, lockOpsOf_append, lockOpsOf_locked]
    · show (Effect.Lock ("start." ++ event.ID) true ::
          (StartHandler.Handle.locked w h event).2
            ++ [Effect.Unlock ("start." ++ event.ID)]).getLast? = _
      exact List.getLast?_concat _
    · simp
    · intro hmem
      unfold locks.Lock at hlock
      simp [hmem] at hlock
  · intro hlock
    rw [handle_lock_free w h event held hlock]
    rfl

/-- The locked part when an IP is found but the container is not running:
it returns nil after the lookup. -/
theorem locked_not_running (w : Host) (h : StartHandler) (event : docker.APIEvents)
    (c : docker.Container)
    (hins : h.Client.InspectContainer 0 event.ID = Except.ok c)
    (herr : (h.getRancherIP w c).err = none)
    (hrun : c.State.Running = false) :
    StartHandler.Handle.locked w h event =
      (none, Effect.InspectContainer event.ID :: (h.getRancherIP w c).trace) := by
  unfold StartHandler.Handle.locked
  simp only [hins, herr, hrun, Bool.not_false, if_true, ite_self]

/-- C8: `Handle` runs the configuration command at most once; it runs it
exactly when the lock was acquired, the first inspection succeeded,
`getRancherIP` gave a non-empty IP with no error and that inspection reported
the container running; the command run is `net-util.sh -p <pid> -i <ip>` with
the pid of the first inspection in decimal; with a non-empty IP and a
container that is not running, `Handle` returns nil and runs no command. -/
theorem handle_command_invocation (w : Host) (h : StartHandler) (event : docker.APIEvents)
    (held : List String) :
    (commandsOf (h.Handle w event held).trace).length ≤ 1 ∧
    (commandsOf (h.Handle w event held).trace ≠ [] ↔
      locks.Lock ("start." ++ event.ID) held ≠ none ∧
      ∃ c : docker.Container, h.Client.InspectContainer 0 event.ID = Except.ok c ∧
        (h.getRancherIP w c).err = none ∧ (h.getRancherIP w c).ip ≠ "" ∧
        c.State.Running = true) ∧
    (∀ cmd ∈ commandsOf (h.Handle w event held).trace,
      ∃ c : docker.Container, h.Client.InspectContainer 0 event.ID = Except.ok c ∧
        cmd = ⟨"net-util.sh", ["-p", strconv.Itoa c.State.Pid, "-i", (h.getRancherIP w c).ip]⟩) ∧
    (∀ c : docker.Container, locks.Lock ("start." ++ event.ID) held ≠ none →
      h.Client.InspectContainer 0 event.ID = Except.ok c →
      (h.getRancherIP w c).err = none → (h.getRancherIP w c).ip ≠ "" →
      c.State.Running = false →
      (h.Handle w event held).err = none ∧ commandsOf (h.Handle w event held).trace = []) := by
  have hcmds := handle_commands w h event held
  have hbody := locked_commands w h event
  refine ⟨?_, ?_, ?_, ?_⟩
  · rw [hcmds]
    split
    · rw [hbody]
      split
      · simp
      · split <;> simp
    · simp
  · rw [hcmds]
    by_cases hlock : locks.Lock ("start." ++ event.ID) held ≠ none
    · rw [if_pos hlock, hbody]
      cases hins : h.Client.InspectContainer 0 event.ID with
      | error e => simp
      | ok c =>
        by_cases hcond : (h.getRancherIP w c).err = none ∧ (h.getRancherIP w c).ip ≠ "" ∧
            c.State.Running = true
        · simp only [if_pos hcond]
          constructor
          · intro _
            exact ⟨hlock, c, rfl, hcond⟩
          · intro _
            simp
        · simp only [if_neg hcond]
          constructor
          · intro habs
            exact absurd rfl habs
          · rintro ⟨_, c2, hc2, hrest⟩
            cases hc2
            exact absurd hrest hcond
    · rw [if_neg hlock]
      constructor
      · intro habs
        exact absurd rfl habs
      · rintro ⟨hl, _⟩
        exact absurd hl hlock
  · intro cmd hcmd
    rw [hcmds] at hcmd
    by_cases hlock : locks.Lock ("start." ++ event.ID) held ≠ none
    · rw [if_pos hlock, hbody] at hcmd
      cases hins : h.Client.InspectContainer 0 event.ID with
      | error e =>
        rw [hins] at hcmd
        simp at hcmd
      | ok c =>
        rw [hins] at hcmd
        by_cases hcond : (h.getRancherIP w c).err = none ∧ (h.getRancherIP w c).ip ≠ "" ∧
            c.State.Running = true
        · simp only [if_pos hcond, List.mem_singleton] at hcmd
          exact ⟨c, rfl, hcmd⟩
        · simp only [if_neg hcond] at hcmd
          simp at hcmd
    · rw [if_neg hlock] at hcmd
      simp at hcmd
  · intro c hlock hins herr _ hrun
    constructor
    · rw [handle_acquired w h event held hlock, locked_not_running w h event c hins herr hrun]
    · rw [hcmds, if_pos hlock, hbody, hins]
      simp [hrun]

/-- C10: with the lock acquired, when the first inspection fails with `e`,
`Handle` returns exactly `e`; when it succeeds, the environment has no
`RANCHER_IP=` entry and the descriptor file exists but cannot be read or does
not parse, `Handle` returns a non-nil error; no command is run in either case. -/
theorem handle_real_failures (w : Host) (h : StartHandler) (event : docker.APIEvents)
    (held : List String) (hlock : locks.Lock ("start." ++ event.ID) held ≠ none) :
    (∀ e : GoError, h.Client.InspectContainer 0 event.ID = Except.error e →
      (h.Handle w event held).err = some e ∧ commandsOf (h.Handle w event held).trace = []) ∧
    (∀ c : docker.Container, h.Client.InspectContainer 0 event.ID = Except.ok c →
      (∀ x ∈ c.Config.Env, ¬ ∃ u : String, x = RancherIPKey ++ u) →
      w.Stat (w.Join h.ContainerStateDir c.ID) = true →
      ((∃ e : GoError, w.ReadFile (w.Join h.ContainerStateDir c.ID) = Except.error e) ∨
        ∃ (file : String) (e : GoError),
          w.ReadFile (w.Join h.ContainerStateDir c.ID) = Except.ok file ∧
          w.Unmarshal file = Except.error e) →
      (h.Handle w event held).err ≠ none ∧ commandsOf (h.Handle w event held).trace = []) := by
  have hall := handle_acquired w h event held hlock
  have hcmds := handle_commands w h event held
  rw [if_pos hlock, locked_commands] at hcmds
  constructor
  · intro e hins
    constructor
    · rw [hall]
      unfold StartHandler.Handle.locked
      rw [hins]
    · rw [hcmds, hins]
  · intro c hins henv hstat hbad
    have herr : ∃ e : GoError, (h.getRancherIP w c).err = some e := by
      unfold StartHandler.getRancherIP
      rcases hbad with ⟨e, hread⟩ | ⟨file, e, hread, hparse⟩
      · simp [envLoop_none _ henv, hstat, hread]
      · simp [envLoop_none _ henv, hstat, hread, hparse]
    obtain ⟨e, he⟩ := herr
    constructor
    · rw [hall]
      unfold StartHandler.Handle.locked
      simp [hins, he]
    · rw [hcmds, hins]
      simp [he]

/-- C10 on three starts: a failed inspection, an unreadable descriptor and a
descriptor that is not valid JSON. -/
theorem handle_real_failures_witness :
    ((mkHandler (Except.error ⟨"no such container"⟩) (Except.error ⟨"x"⟩)).Handle
      bareHost ⟨"c1", "start"⟩ []).err = some ⟨"no such container"⟩ ∧
    ((mkHandler (Except.ok (mkContainer [] true 7)) (Except.error ⟨"x"⟩)).Handle
      (brokenHost false) ⟨"c1", "start"⟩ []).err ≠ none ∧
    ((mkHandler (Except.ok (mkContainer [] true 7)) (Except.error ⟨"x"⟩)).Handle
      (brokenHost true) ⟨"c1", "start"⟩ []).err ≠ none :=
  ⟨((handle_real_failures bareHost
      (mkHandler (Except.error ⟨"no such container"⟩) (Except.error ⟨"x"⟩))
      ⟨"c1", "start"⟩ [] (by decide)).1 ⟨"no such container"⟩ rfl).1,
   ((handle_real_failures (brokenHost false)
      (mkHandler (Except.ok (mkContainer [] true 7)) (Except.error ⟨"x"⟩))
      ⟨"c1", "start"⟩ [] (by decide)).2 (mkContainer [] true 7) rfl
        (fun x hx => absurd hx (List.not_mem_nil x)) rfl
        (Or.inl ⟨⟨"permission denied"⟩, rfl⟩)).1,
   ((handle_real_failures (brokenHost true)
      (mkHandler (Except.ok (mkContainer [] true 7)) (Except.error ⟨"x"⟩))
      ⟨"c1", "start"⟩ [] (by decide)).2 (mkContainer [] true 7) rfl
        (fun x hx => absurd hx (List.not_mem_nil x)) rfl
        (Or.inr ⟨"not json", ⟨"invalid character"⟩, rfl, rfl⟩)).1⟩

/-! ## The registry and the bootstrap replay -/

/-- C7: `getRancherClientFn` returns a nil client and no error when the URL,
the access key or the secret key is empty.  Given a nil client,
`getHandlersFn` returns a registry whose only key is `start`, bound to the
start handler alone; given a client, the keys are `start`, `create`, `stop`,
`die`, `kill` and `destroy`, with `start` bound to the start handler followed
by the forwarding handler and the other five to the forwarding handler alone.
`getHandlersFn` returns no error. -/
theorem registry_construction (cfg : config.Config) (dockerClient : docker.Client)
    (NewRancherClient : rclient.ClientOpts → Except GoError rclient.RancherClient) :
    ((cfg.CattleUrl = "" ∨ cfg.CattleAccessKey = "" ∨ cfg.CattleSecretKey = "") →
      getRancherClientFn cfg NewRancherClient = (none, none)) ∧
    (∀ k : String, (getHandlersFn cfg dockerClient none).1.get k =
      if k = "start" then
        some [Handler.Start ⟨dockerClient.asSimple, cfg.CattleStateDir⟩]
      else none) ∧
    (∀ (rc : rclient.RancherClient) (k : String),
      (getHandlersFn cfg dockerClient (some rc)).1.get k =
        if k = "start" then
          some [Handler.Start ⟨dockerClient.asSimple, cfg.CattleStateDir⟩,
            Handler.SendToRancher ⟨dockerClient, rc, cfg.HostUuid⟩]
        else if k ∈ ["create", "stop", "die", "kill", "destroy"] then
          some [Handler.SendToRancher ⟨dockerClient, rc, cfg.HostUuid⟩]
        else none) ∧
    (∀ rc : Option rclient.RancherClient, (getHandlersFn cfg dockerClient rc).2 = none) := by
  refine ⟨?_, ?_, ?_, ?_⟩
  · intro hempty
    unfold getRancherClientFn
    simp only [if_pos hempty]
  · intro k
    by_cases hk : k = "start"
    · subst hk
      simp [getHandlersFn, Registry.set, Registry.get, getContainerStateDir]
    · have hk2 : ¬ "start" = k := fun h => hk h.symm
      simp [getHandlersFn, Registry.set, Registry.get, getContainerStateDir, hk, hk2]
  · intro rc k
    have hreg : (getHandlersFn cfg dockerClient (some rc)).1 =
        [("start", [Handler.Start ⟨dockerClient.asSimple, cfg.CattleStateDir⟩,
            Handler.SendToRancher ⟨dockerClient, rc, cfg.HostUuid⟩]),
         ("create", [Handler.SendToRancher ⟨dockerClient, rc, cfg.HostUuid⟩]),
         ("stop", [Handler.SendToRancher ⟨dockerClient, rc, cfg.HostUuid⟩]),
         ("die", [Handler.SendToRancher ⟨dockerClient, rc, cfg.HostUuid⟩]),
         ("kill", [Handler.SendToRancher ⟨dockerClient, rc, cfg.HostUuid⟩]),
         ("destroy", [Handler.SendToRancher ⟨dockerClient, rc, cfg.HostUuid⟩])] := by
      simp [getHandlersFn, Registry.set, Registry.get, Registry.getD, getContainerStateDir,
        getHostUuid]
    rw [hreg]
    simp only [Registry.get, List.mem_cons, List.mem_singleton, List.not_mem_nil, or_false]
    by_cases h1 : k = "start"
    · subst h1; simp
    by_cases h2 : k = "create"
    · subst h2; simp
    by_cases h3 : k = "stop"
    · subst h3; simp
    by_cases h4 : k = "die"
    · subst h4; simp
    by_cases h5 : k = "kill"
    · subst h5; simp
    by_cases h6 : k = "destroy"
    · subst h6; simp
    simp [h1, h2, h3, h4, h5, h6, eq_comm]
  · intro rc
    cases rc <;> rfl

/-- The events sent by two traces run one after the other. -/
theorem sentEvents_append (a b : List ProcessEffect) :
    sentEvents (a ++ b) = sentEvents a ++ sentEvents b := by
  induction a with
  | nil => rfl
  | cons x rest ih => cases x <;> simp [sentEvents, ih]

/-- The send loop makes one send per listed container, in listing order. -/
theorem sendLoop_eq_map (listener : Nat) (cs : List docker.APIContainers) :
    Process.sendLoop listener cs =
      cs.map fun c => ProcessEffect.Send listener ⟨c.ID, "start"⟩ := by
  induction cs with
  | nil => rfl
  | cons c rest ih => simp [Process.sendLoop, ih]

/-- The events of the send loop: a `start` event per listed container. -/
theorem sentEvents_sendLoop (listener : Nat) (cs : List docker.APIContainers) :
    sentEvents (Process.sendLoop listener cs) =
      cs.map fun c => (⟨c.ID, "start"⟩ : docker.APIEvents) := by
  induction cs with
  | nil => rfl
  | cons c rest ih => simp [Process.sendLoop, sentEvents, ih]

/-- C9: when the runtime client, the control-plane client, the registry and
the router are all obtained and the listing of paused and running containers
returns `cs`, `Process` starts the router and the watcher, then sends on the
router's listener one event per element of `cs`, in listing order, with that
container's ID and status `start`, and returns nil; when the runtime client
cannot be built, or the listing fails, it returns that error and sends no
event. -/
theorem process_bootstrap_replay (cfg : config.Config) (de : DockerEventsProcessor) :
    (∀ (dc : docker.Client) (rc : Option rclient.RancherClient) (reg : Registry)
        (router : EventRouter) (cs : List docker.APIContainers),
      de.getDockerClient () = Except.ok dc →
      de.getRancherClient () = (rc, none) →
      de.getHandlers dc rc = (reg, none) →
      de.NewEventRouter de.poolSize de.poolSize dc reg = Except.ok router →
      dc.ListContainers ⟨true, [("status", ["paused", "running"])]⟩ = Except.ok cs →
      (de.Process cfg).1 = none ∧
      (de.Process cfg).2 =
        [ProcessEffect.RouterStart router,
          ProcessEffect.Watch router.listener cfg.CattleStateDir,
          ProcessEffect.ListContainers ⟨true, [("status", ["paused", "running"])]⟩] ++
        (cs.map fun c => ProcessEffect.Send router.listener ⟨c.ID, "start"⟩) ∧
      sentEvents (de.Process cfg).2 = cs.map fun c => (⟨c.ID, "start"⟩ : docker.APIEvents)) ∧
    (∀ e : GoError, de.getDockerClient () = Except.error e →
      de.Process cfg = (some e, [])) ∧
    (∀ (dc : docker.Client) (rc : Option rclient.RancherClient) (reg : Registry)
        (router : EventRouter) (e : GoError),
      de.getDockerClient () = Except.ok dc →
      de.getRancherClient () = (rc, none) →
      de.getHandlers dc rc = (reg, none) →
      de.NewEventRouter de.poolSize de.poolSize dc reg = Except.ok router →
      dc.ListContainers ⟨true, [("status", ["paused", "running"])]⟩ = Except.error e →
      (de.Process cfg).1 = some e ∧ sentEvents (de.Process cfg).2 = []) := by
  refine ⟨?_, ?_, ?_⟩
  · intro dc rc reg router cs hdc hrc hreg hrouter hlist
    have hrun : de.Process cfg =
        (none, [ProcessEffect.RouterStart router,
          ProcessEffect.Watch router.listener (getContainerStateDir cfg),
          ProcessEffect.ListContainers ⟨true, [("status", ["paused", "running"])]⟩] ++
          Process.sendLoop router.listener cs) := by
      unfold DockerEventsProcessor.Process
      simp only [hdc, hrc, hreg, hrouter, hlist]
    rw [hrun]
    refine ⟨rfl, ?_, ?_⟩
    · simp only [sendLoop_eq_map, getContainerStateDir]
    · rw [sentEvents_append, sentEvents_sendLoop]
      rfl
  · intro e hdc
    unfold DockerEventsProcessor.Process
    simp only [hdc]
  · intro dc rc reg router e hdc hrc hreg hrouter hlist
    have hrun : de.Process cfg =
        (some e, [ProcessEffect.RouterStart router,
          ProcessEffect.Watch router.listener (getContainerStateDir cfg),
          ProcessEffect.ListContainers ⟨true, [("status", ["paused", "running"])]⟩]) := by
      unfold DockerEventsProcessor.Process
      simp only [hdc, hrc, hreg, hrouter, hlist]
    rw [hrun]
    exact ⟨rfl, rfl⟩

/-- C6 on a start whose command fails while the container keeps running: the
handler returns the error and the table, which held another key, is unchanged. -/
theorem handle_releases_lock_witness :
    ((mkHandler (Except.ok (mkContainer ["RANCHER_IP=10.0.0.5/24"] true 7))
        (Except.ok (mkContainer ["RANCHER_IP=10.0.0.5/24"] true 7))).Handle
      (fileHost exampleInstance (some ⟨"exit status 1"⟩)) ⟨"c1", "start"⟩ ["start.c2"]).held
        = ["start.c2"] ∧
    lockOpsOf ((mkHandler (Except.ok (mkContainer ["RANCHER_IP=10.0.0.5/24"] true 7))
        (Except.ok (mkContainer ["RANCHER_IP=10.0.0.5/24"] true 7))).Handle
      (fileHost exampleInstance (some ⟨"exit status 1"⟩)) ⟨"c1", "start"⟩ ["start.c2"]).trace
        = [Effect.Lock "start.c1" true, Effect.Unlock "start.c1"] :=
  have key := handle_releases_lock (fileHost exampleInstance (some ⟨"exit status 1"⟩))
    (mkHandler (Except.ok (mkContainer ["RANCHER_IP=10.0.0.5/24"] true 7))
      (Except.ok (mkContainer ["RANCHER_IP=10.0.0.5/24"] true 7)))
    ⟨"c1", "start"⟩ ["start.c2"]
  ⟨key.1, (key.2.1 (by decide)).1⟩

/-- C7 on a configuration without secret key: no client, no error, and a
registry with the start handler alone under `start` and nothing under `stop`. -/
theorem registry_construction_witness :
    getRancherClientFn partialConfig (fun o => Except.ok ⟨o⟩) = (none, none) ∧
    (getHandlersFn partialConfig (mkClient (Except.ok [])) none).1.get "start" =
      some [Handler.Start ⟨(mkClient (Except.ok [])).asSimple, "/state"⟩] ∧
    (getHandlersFn partialConfig (mkClient (Except.ok [])) none).1.get "stop" = none :=
  have key := registry_construction partialConfig (mkClient (Except.ok []))
    (fun o => Except.ok ⟨o⟩)
  ⟨key.1 (Or.inr (Or.inr rfl)), key.2.1 "start", key.2.1 "stop"⟩

/-- C8 on a running container with `RANCHER_IP=10.0.0.5/24` and pid 7: one
command, `net-util.sh -p 7 -i 10.0.0.5/24`. -/
theorem handle_command_invocation_witness :
    commandsOf ((mkHandler (Except.ok (mkContainer ["RANCHER_IP=10.0.0.5/24"] true 7))
        (Except.error ⟨"x"⟩)).Handle bareHost ⟨"c1", "start"⟩ []).trace ≠ [] ∧
    ∀ cmd ∈ commandsOf ((mkHandler (Except.ok (mkContainer ["RANCHER_IP=10.0.0.5/24"] true 7))
        (Except.error ⟨"x"⟩)).Handle bareHost ⟨"c1", "start"⟩ []).trace,
      cmd = ⟨"net-util.sh", ["-p", "7", "-i", "10.0.0.5/24"]⟩ :=
  have key := handle_command_invocation bareHost
    (mkHandler (Except.ok (mkContainer ["RANCHER_IP=10.0.0.5/24"] true 7)) (Except.error ⟨"x"⟩))
    ⟨"c1", "start"⟩ []
  ⟨key.2.1.2 ⟨by decide, mkContainer ["RANCHER_IP=10.0.0.5/24"] true 7, rfl, by decide,
      by decide, rfl⟩,
   fun cmd hcmd => by
    obtain ⟨c, hc, hcmdeq⟩ := key.2.2.1 cmd hcmd
    have hc2 : c = mkContainer ["RANCHER_IP=10.0.0.5/24"] true 7 :=
      (Except.ok.inj hc).symm
    subst hc2
    rw [hcmdeq]
    decide⟩

/-- C9 on a host with two containers listed and no control-plane
credentials: two `start` events, in listing order, and a nil result; and on a
host whose runtime client cannot be built: that error and no effect. -/
theorem process_bootstrap_replay_witness :
    ((mkProcessor (Except.ok (mkClient (Except.ok [⟨"a"⟩, ⟨"b"⟩])))).Process partialConfig).1
      = none ∧
    sentEvents
        ((mkProcessor (Except.ok (mkClient (Except.ok [⟨"a"⟩, ⟨"b"⟩])))).Process partialConfig).2
      = [⟨"a", "start"⟩, ⟨"b", "start"⟩] ∧
    (mkProcessor (Except.error ⟨"cannot connect"⟩)).Process partialConfig
      = (some ⟨"cannot connect"⟩, []) :=
  have key := (process_bootstrap_replay partialConfig
    (mkProcessor (Except.ok (mkClient (Except.ok [⟨"a"⟩, ⟨"b"⟩]))))).1
      (mkClient (Except.ok [⟨"a"⟩, ⟨"b"⟩])) none
      (getHandlersFn partialConfig (mkClient (Except.ok [⟨"a"⟩, ⟨"b"⟩])) none).1 ⟨0⟩
      [⟨"a"⟩, ⟨"b"⟩] rfl rfl rfl rfl rfl
  ⟨key.1, key.2.2,
    (process_bootstrap_replay partialConfig (mkProcessor (Except.error ⟨"cannot connect"⟩))).2.1
      ⟨"cannot connect"⟩ rfl⟩
